import Mathlib

/-!
Shallow embedding of the StockAnalysis core engine
(`core/indicators.py`, `core/support_resistance.py`, `core/strategy_engine.py`,
`core/summarizer.py`) and proofs about it.

Price data is modelled exactly: a pandas column of float64 prices becomes a
`List ℚ` (the indicator pipelines are started from finite numeric inputs, so
inside them no NaN or infinity can arise except where the source explicitly
creates one; those spots are modelled with `Option`).  The summariser, whose
whole point is handling NaN/±inf cells, works over an explicit IEEE-style
value type `FVal`.  Fallible functions (Python `raise ValueError`) return
`Except Err`.
-/

/-- Python `ValueError` (the spec calls it `InvalidInputError`), raised by the
indicator engine on a missing or empty required column. -/
inductive Err where
  | valueError
  deriving DecidableEq, Repr

/-- One step stream of `pandas.Series.ewm(..., adjust=False).mean()`:
given the previous smoothed value `y`, each new observation `x` contributes
`(1 - a) * y + a * x`. -/
def ewmFrom (a y : ℚ) : List ℚ → List ℚ
  | [] => []
  | x :: xs => ((1 - a) * y + a * x) :: ewmFrom a ((1 - a) * y + a * x) xs

/-- `ewm(..., adjust=False).mean()` over a whole column: the first output is
the first observation, afterwards the recursion `ewmFrom` runs. -/
def ewmMean (a : ℚ) : List ℚ → List ℚ
  | [] => []
  | x :: xs => x :: ewmFrom a x xs

/-- `min_periods = w` masking of an `ewm` result: the first `w - 1` outputs are
NaN (`none`), from position `w - 1` on the smoothed value is reported. -/
def maskMP (w : ℕ) (l : List ℚ) : List (Option ℚ) :=
  List.replicate (min (w - 1) l.length) none ++ (l.drop (w - 1)).map some

/-- `Series.clip(lo, hi)` on one value. -/
def clip (lo hi q : ℚ) : ℚ :=
  min hi (max lo q)

/-- `np.mean` of a list (sum divided by length; only ever applied to non-empty
lists in the source). -/
def meanQ (l : List ℚ) : ℚ :=
  l.sum / (l.length : ℚ)

/-- Round-half-even to the nearest integer, the tie rule of Python `round`. -/
def roundHalfEven (q : ℚ) : ℤ :=
  if 1 / 2 < q - ⌊q⌋ then ⌊q⌋ + 1
  else if q - ⌊q⌋ < 1 / 2 then ⌊q⌋
  else if ⌊q⌋ % 2 = 0 then ⌊q⌋ else ⌊q⌋ + 1

/-- Python `round(q, d)`: round-half-even at `d` decimal places. -/
def roundTo (d : ℕ) (q : ℚ) : ℚ :=
  ((roundHalfEven (q * 10 ^ d) : ℤ) : ℚ) / 10 ^ d

/-- `Series.first_valid_index` made into a value: the first non-`none` entry. -/
def firstSome : List (Option ℚ) → Option ℚ
  | [] => none
  | none :: rest => firstSome rest
  | some x :: _ => some x

/-- `np.diff(close, prepend=close[0])`: first delta is `0`, afterwards each
entry is the difference to the previous close. -/
def rsiDeltas : List ℚ → List ℚ
  | [] => []
  | x :: xs => 0 :: List.zipWith (· - ·) xs (x :: xs)

/-- `np.where(delta > 0, delta, 0)`. -/
def rsiGain (c : List ℚ) : List ℚ :=
  (rsiDeltas c).map (fun d => if 0 < d then d else 0)

/-- `np.where(delta < 0, -delta, 0)`. -/
def rsiLoss (c : List ℚ) : List ℚ :=
  (rsiDeltas c).map (fun d => if d < 0 then -d else 0)

/-- Wilder-smoothed average gain: `ewm(com=window-1, adjust=False,
min_periods=window).mean()` of the gains; `com = w - 1` gives `a = 1 / w`. -/
def rsiAvgGain (c : List ℚ) (w : ℕ) : List (Option ℚ) :=
  maskMP w (ewmMean (1 / (w : ℚ)) (rsiGain c))

/-- Wilder-smoothed average loss, same smoothing as `rsiAvgGain`. -/
def rsiAvgLoss (c : List ℚ) (w : ℕ) : List (Option ℚ) :=
  maskMP w (ewmMean (1 / (w : ℚ)) (rsiLoss c))

/-- One entry of `rs = np.divide(avg_gain, avg_loss); rs[np.isinf(rs)] = 100`:
NaN inputs stay NaN; a zero average loss gives ±inf (replaced by `100`) unless
the average gain is zero too, in which case `0/0` is NaN. -/
def rsOf : Option ℚ → Option ℚ → Option ℚ
  | some g, some l =>
    if l = 0 then (if g = 0 then none else some 100) else some (g / l)
  | _, _ => none

/-- One entry of `(100 - 100 / (1 + rs)).fillna(50.0).clip(0, 100)`. -/
def rsiFromRS (o : Option ℚ) : ℚ :=
  clip 0 100 (match o with | none => 50 | some r => 100 - 100 / (1 + r))

/-- The RSI column of `indicators.rsi` for a present, non-empty Close column:
fewer than 2 bars give the constant 50, otherwise the Wilder pipeline runs. -/
def rsiCore (c : List ℚ) (w : ℕ) : List ℚ :=
  if c.length < 2 then List.replicate c.length 50
  else (List.zipWith rsOf (rsiAvgGain c w) (rsiAvgLoss c w)).map rsiFromRS

/-- `indicators.rsi`: raises `ValueError` when the Close column is missing or
empty, otherwise computes the RSI column (window 14). -/
def rsi (close : Option (List ℚ)) : Except Err (List ℚ) :=
  match close with
  | none => .error .valueError
  | some c => if c = [] then .error .valueError else .ok (rsiCore c 14)

/-- The MACD / Signal / Histogram columns of `indicators.macd` for a present,
non-empty Close column.  Fewer bars than `slow` give all-zero columns.  With
`adjust=False` and no `min_periods` the ewm outputs contain no NaN, so the
source's bfill/ffill/fillna(0) chain is the identity and is not repeated
here. -/
def macdCore (c : List ℚ) (fast slow signal : ℕ) : List ℚ × List ℚ × List ℚ :=
  if c.length < slow then
    (List.replicate c.length 0, List.replicate c.length 0, List.replicate c.length 0)
  else
    let ef := ewmMean (2 / ((fast : ℚ) + 1)) c
    let es := ewmMean (2 / ((slow : ℚ) + 1)) c
    let m := List.zipWith (· - ·) ef es
    let s := ewmMean (2 / ((signal : ℚ) + 1)) m
    (m, s, List.zipWith (· - ·) m s)

/-- `indicators.macd`: raises `ValueError` when the Close column is missing or
empty, otherwise computes (MACD, Signal, Histogram) with spans 12/26/9. -/
def macd (close : Option (List ℚ)) : Except Err (List ℚ × List ℚ × List ℚ) :=
  match close with
  | none => .error .valueError
  | some c => if c = [] then .error .valueError else .ok (macdCore c 12 26 9)

/-- The window `rolling(window=w, min_periods=1)` sees at output index `i`:
the last `min (i+1) w` entries up to and including index `i`. -/
def rollingWindow (w : ℕ) (l : List ℚ) (i : ℕ) : List ℚ :=
  (l.take (i + 1)).drop (i + 1 - w)

/-- `rolling(window=w, min_periods=1).mean()`. -/
def rollingMean (w : ℕ) (l : List ℚ) : List ℚ :=
  (List.range l.length).map (fun i => meanQ (rollingWindow w l i))

/-- The squared `rolling(window=w, min_periods=1).std(ddof=0)` column, i.e.
the rolling population variance.  (A single-observation window has variance 0,
which also absorbs the source's `.fillna(0)` on the std column.) -/
def rollingVar (w : ℕ) (l : List ℚ) : List ℚ :=
  (List.range l.length).map (fun i =>
    meanQ ((rollingWindow w l i).map (fun x => (x - meanQ (rollingWindow w l i)) ^ 2)))

/-- The BB_UPPER column: rolling mean plus `k` rolling standard deviations,
where the standard deviation is the real square root of `rollingVar`.  After
the std's `fillna(0)` no NaN remains, so the source's final
bfill/ffill/fillna(mean) chain is the identity and is not repeated here. -/
noncomputable def bbUpperList (c : List ℚ) (w : ℕ) (k : ℚ) : List ℝ :=
  List.zipWith (fun (m v : ℚ) => (m : ℝ) + (k : ℝ) * Real.sqrt (v : ℝ))
    (rollingMean w c) (rollingVar w c)

/-- The BB_LOWER column: rolling mean minus `k` rolling standard deviations. -/
noncomputable def bbLowerList (c : List ℚ) (w : ℕ) (k : ℚ) : List ℝ :=
  List.zipWith (fun (m v : ℚ) => (m : ℝ) - (k : ℝ) * Real.sqrt (v : ℝ))
    (rollingMean w c) (rollingVar w c)

/-- `indicators.bollinger`: raises `ValueError` when the Close column is
missing or empty, otherwise computes the window-20 rolling mean (BB_MID) and
rolling population variance; the bands are `bbUpperList` / `bbLowerList`. -/
def bollinger (close : Option (List ℚ)) : Except Err (List ℚ × List ℚ) :=
  match close with
  | none => .error .valueError
  | some c => if c = [] then .error .valueError else .ok (rollingMean 20 c, rollingVar 20 c)

/-- True ranges for bars 1.., each `max (high-low) (max |high-prev_close|
|low-prev_close|)`, threading the previous close along. -/
def trAux : List ℚ → List ℚ → List ℚ → ℚ → List ℚ
  | hx :: hs, lx :: ls, cx :: cs, pc =>
    max (hx - lx) (max |hx - pc| |lx - pc|) :: trAux hs ls cs cx
  | _, _, _, _ => []

/-- The full true-range column: the first bar has no previous close and its
true range is `high - low` (the source overwrites `tr[0]` accordingly). -/
def trList (high low close : List ℚ) : List ℚ :=
  match high, low, close with
  | hx :: hs, lx :: ls, cx :: cs => (hx - lx) :: trAux hs ls cs cx
  | _, _, _ => []

/-- The ATR column of `indicators.atr` once the High/Low/Close columns are
present.  Fewer than 2 bars give the constant 0.  The masked Wilder smoothing
leaves a prefix of NaNs followed by values only, so the source's backfill
replaces every NaN with the first valid value (`Option.getD`); when no valid
value exists the fallback value is 0.  Finally `clip(lower=0)`. -/
def atrCore (high low close : List ℚ) (w : ℕ) : List ℚ :=
  if close.length < 2 then List.replicate close.length 0
  else
    match firstSome (maskMP w (ewmMean (1 / (w : ℚ)) (trList high low close))) with
    | none => List.replicate (trList high low close).length 0
    | some v =>
      (maskMP w (ewmMean (1 / (w : ℚ)) (trList high low close))).map (fun o => max 0 (o.getD v))

/-- `indicators.atr`: raises `ValueError` when any of the High/Low/Close
columns is missing (an empty frame with the columns present does NOT raise),
otherwise computes the window-14 ATR column. -/
def atr (high low close : Option (List ℚ)) : Except Err (List ℚ) :=
  match high, low, close with
  | some h, some l, some c => .ok (atrCore h l c 14)
  | _, _, _ => .error .valueError

/-- The frame seen by `indicators.calculate_smas`: a possibly missing Close
column and the two SMA columns it may add. -/
structure SmaFrame where
  close : Option (List ℚ)
  sma50 : Option (List ℚ)
  sma200 : Option (List ℚ)
  deriving DecidableEq, Repr

/-- `indicators.calculate_smas`: when the Close column is missing or empty the
frame is returned unchanged (no exception); otherwise SMA50 and SMA200 rolling
means (min_periods=1) are added. -/
def calculate_smas (df : SmaFrame) : SmaFrame :=
  match df.close with
  | none => df
  | some c =>
    if c = [] then df
    else { df with sma50 := some (rollingMean 50 c), sma200 := some (rollingMean 200 c) }

/-- Swing lows of a Low column: every interior bar strictly below both of its
neighbours, in chronological order. -/
def swingLows : List ℚ → List ℚ
  | a :: b :: c :: rest => (if b < a ∧ b < c then [b] else []) ++ swingLows (b :: c :: rest)
  | _ => []

/-- Swing highs of a High column: every interior bar strictly above both of
its neighbours, in chronological order. -/
def swingHighs : List ℚ → List ℚ
  | a :: b :: c :: rest => (if a < b ∧ c < b then [b] else []) ++ swingHighs (b :: c :: rest)
  | _ => []

/-- `support_resistance.swing_levels`: on an empty frame or missing High/Low
columns it returns two empty lists (after printing an error) instead of
raising; with fewer than 3 bars it likewise returns empty lists; otherwise
the supports are the swing lows and the resistances the swing highs. -/
def swing_levels (high low : Option (List ℚ)) : List ℚ × List ℚ :=
  match high, low with
  | some hs, some ls =>
    if hs = [] then ([], [])
    else if hs.length < 3 then ([], [])
    else (swingLows ls, swingHighs hs)
  | _, _ => ([], [])

/-- One graded support/resistance zone. -/
structure LevelCluster where
  level : ℚ
  strength : String
  hits : ℕ
  deriving DecidableEq, Repr

/-- Cluster strength from the number of hits: `>= 4` very strong, `>= 2`
strong, otherwise medium. -/
def gradeStrength (count : ℕ) : String :=
  if 4 ≤ count then "very strong" else if 2 ≤ count then "strong" else "medium"

/-- Python `sorted` on prices: a stable ascending sort. -/
def sortQ (l : List ℚ) : List ℚ :=
  List.insertionSort (· ≤ ·) l

/-- The clustering loop of `cluster_levels` over the already sorted tail:
`cur` is the cluster being grown and `lastv` its last accepted level (which,
the input being sorted, is the previously seen level).  A level within
`th` relative distance of `lastv` joins the cluster, otherwise a new cluster
starts.  (Python divides by `lastv` and would raise `ZeroDivisionError` at
`lastv = 0`; every use in this file keeps the levels positive.) -/
def clusterGo (th : ℚ) (cur : List ℚ) (lastv : ℚ) : List ℚ → List (List ℚ)
  | [] => [cur]
  | x :: xs =>
    if |x - lastv| / lastv < th then clusterGo th (cur ++ [x]) x xs
    else cur :: clusterGo th [x] x xs

/-- Split a sorted level list into clusters, seeding the first cluster with
the first level exactly as the source does. -/
def clusterSorted (th : ℚ) : List ℚ → List (List ℚ)
  | [] => []
  | x :: xs => clusterGo th [x] x xs

/-- Grade one raw cluster: the zone level is the mean rounded to 4 decimals,
the strength comes from the hit count. -/
def mkCluster (c : List ℚ) : LevelCluster :=
  { level := roundTo 4 (meanQ c), strength := gradeStrength c.length, hits := c.length }

/-- `support_resistance.cluster_levels`: empty input gives no zones, otherwise
sort, split greedily (threshold on the relative distance to the last accepted
level), and grade each cluster. -/
def cluster_levels (levels : List ℚ) (th : ℚ) : List LevelCluster :=
  if levels = [] then [] else (clusterSorted th (sortQ levels)).map mkCluster

/-- The `s_r` dictionary handed to the trade-plan builder and the summary:
graded support and resistance zones. -/
structure SRZones where
  support_zones : List LevelCluster
  resistance_zones : List LevelCluster
  deriving DecidableEq, Repr

/-- Python `max` over a possibly empty list. -/
def listMax : List ℚ → Option ℚ
  | [] => none
  | x :: xs => some (match listMax xs with | none => x | some m => max x m)

/-- Python `min` over a possibly empty list. -/
def listMin : List ℚ → Option ℚ
  | [] => none
  | x :: xs => some (match listMin xs with | none => x | some m => min x m)

/-- The result of `strategy_engine.build_trade_plan`: the empty dict for a
missing/empty frame, a note-only dict when no resistance lies above the price,
or the full plan. -/
inductive TradePlan where
  | empty
  | noteOnly (note : String)
  | full (direction : Option String) (entry stop_loss take_profit : ℚ)
      (risk_reward : Option ℚ) (note : String)
  deriving DecidableEq, Repr

/-- `strategy_engine.build_trade_plan`.  The frame is represented by its Close
column (`none` models `df is None`, `some []` an empty frame).  Zone dicts are
normalised to their `level` just as the source does.  `nearest_support` is the
greatest support strictly below the last close, defaulting to 0; when no
resistance lies strictly above the last close (the `inf` sentinel) only a note
is returned.  `risk_reward` is computed only when `nearest_support > 0`, and
Python's `round(rr, 2) if rr else None` maps a zero ratio to `None`. -/
def build_trade_plan (close : Option (List ℚ)) (s_r : SRZones) : TradePlan :=
  match close with
  | none => .empty
  | some c =>
    if c = [] then .empty
    else
      let last_close := (c.getLast?).getD 0
      let nearest_support :=
        (listMax ((s_r.support_zones.map (·.level)).filter (fun s => decide (s < last_close)))).getD 0
      match listMin ((s_r.resistance_zones.map (·.level)).filter (fun r => decide (last_close < r))) with
      | none => .noteOnly "No valid resistance zone above price."
      | some nearest_resistance =>
        let rr : Option ℚ :=
          if 0 < nearest_support then
            some ((nearest_resistance - last_close) / (last_close - nearest_support))
          else none
        .full
          (if nearest_support < last_close ∧ last_close < nearest_resistance then some "LONG" else none)
          last_close nearest_support nearest_resistance
          (match rr with
           | some r => if r = 0 then none else some (roundTo 2 r)
           | none => none)
          "Trade plan generated based on support/resistance levels."

/-- An IEEE-style cell value as stored in a pandas float column: a finite
rational, NaN, or ±infinity. -/
inductive FVal where
  | num (q : ℚ)
  | nan
  | inf
  | ninf
  deriving DecidableEq, Repr

/-- `pd.notna`: false exactly on NaN (infinities count as present values). -/
def pd_notna : FVal → Bool
  | .nan => false
  | _ => true

/-- IEEE subtraction on cell values (only the cases that can reach
`trend_fn`' s arithmetic matter; NaN propagates, same-signed infinities give
NaN). -/
def FVal.sub : FVal → FVal → FVal
  | .nan, _ => .nan
  | _, .nan => .nan
  | .num a, .num b => .num (a - b)
  | .num _, .inf => .ninf
  | .num _, .ninf => .inf
  | .inf, .inf => .nan
  | .inf, _ => .inf
  | .ninf, .ninf => .nan
  | .ninf, _ => .ninf

/-- IEEE absolute value on cell values. -/
def FVal.abs : FVal → FVal
  | .num a => .num |a|
  | .nan => .nan
  | .inf => .inf
  | .ninf => .inf

/-- IEEE division on cell values.  A finite numerator over ±inf is 0, inf/inf
is NaN, NaN propagates.  (Python raises `ZeroDivisionError` on a zero finite
denominator; `trend_fn` guards `sma200 == 0` before dividing, so that case is
unreachable and is mapped to NaN here.) -/
def FVal.div : FVal → FVal → FVal
  | .nan, _ => .nan
  | _, .nan => .nan
  | .num a, .num b => if b = 0 then .nan else .num (a / b)
  | .num _, .inf => .num 0
  | .num _, .ninf => .num 0
  | .inf, .inf => .nan
  | .inf, .ninf => .nan
  | .ninf, .inf => .nan
  | .ninf, .ninf => .nan
  | .inf, .num b => if b < 0 then .ninf else .inf
  | .ninf, .num b => if b < 0 then .inf else .ninf

/-- IEEE `<` on cell values: any comparison with NaN is false. -/
def FVal.flt : FVal → FVal → Bool
  | .nan, _ => false
  | _, .nan => false
  | .num a, .num b => decide (a < b)
  | .num _, .inf => true
  | .num _, .ninf => false
  | .inf, _ => false
  | .ninf, .ninf => false
  | .ninf, _ => true

/-- IEEE `<=` on cell values: any comparison with NaN is false. -/
def FVal.fle : FVal → FVal → Bool
  | .nan, _ => false
  | _, .nan => false
  | .num a, .num b => decide (a ≤ b)
  | .num _, .inf => true
  | .num _, .ninf => false
  | .inf, .inf => true
  | .inf, .num _ => false
  | .inf, .ninf => false
  | .ninf, _ => true

/-- The frame seen by the summariser: the derived indicator columns, each
possibly absent (`df.get` returns `None` for a missing column), with cells
that may be NaN or ±inf. -/
structure SFrame where
  rsiC : Option (List FVal)
  macdC : Option (List FVal)
  macdSignalC : Option (List FVal)
  macdHistC : Option (List FVal)
  bbUpperC : Option (List FVal)
  bbMidC : Option (List FVal)
  bbLowerC : Option (List FVal)
  atrC : Option (List FVal)
  sma50C : Option (List FVal)
  sma200C : Option (List FVal)
  deriving DecidableEq, Repr

/-- `summarizer._safe_float`: the last value of the series when the series
exists, is non-empty and that value passes `pd.notna`; otherwise the default
`None`.  (The cells are numeric, so Python's `float(val)` conversion always
succeeds.)  Note `pd.notna` lets ±inf through. -/
def safe_float (series : Option (List FVal)) : Option FVal :=
  match series with
  | none => none
  | some s =>
    match s.getLast? with
    | none => none
    | some v => if pd_notna v then some v else none

/-- One per-timeframe trend verdict of `summarizer.trend_fn`. -/
structure TrendAssessment where
  trend : String
  strength : String
  sma50 : Option FVal
  sma200 : Option FVal
  deriving DecidableEq, Repr

/-- The classification step of `summarizer.trend_fn`, a pure function of the
extracted (sma50, sma200) values: Unknown when either is missing or sma200 is
zero; otherwise direction by the sign of sma50 - sma200, then strength bands
on `|sma50 - sma200| / sma200` with the `< 0.5%` band forcing Neutral/Weak. -/
def trend_core (sma50 sma200 : Option FVal) : TrendAssessment :=
  match sma50, sma200 with
  | none, _ => ⟨"Unknown", "Unknown", none, none⟩
  | _, none => ⟨"Unknown", "Unknown", none, none⟩
  | some a, some b =>
    if b = .num 0 then ⟨"Unknown", "Unknown", some a, some b⟩
    else
      if FVal.flt (FVal.div (FVal.abs (FVal.sub a b)) b) (.num (5 / 1000)) then
        ⟨"Neutral", "Weak", some a, some b⟩
      else if FVal.fle (.num (3 / 100)) (FVal.div (FVal.abs (FVal.sub a b)) b) then
        ⟨if FVal.flt b a then "Bullish" else if FVal.flt a b then "Bearish" else "Neutral",
         "Strong", some a, some b⟩
      else if FVal.fle (.num (15 / 1000)) (FVal.div (FVal.abs (FVal.sub a b)) b) then
        ⟨if FVal.flt b a then "Bullish" else if FVal.flt a b then "Bearish" else "Neutral",
         "Moderate", some a, some b⟩
      else
        ⟨if FVal.flt b a then "Bullish" else if FVal.flt a b then "Bearish" else "Neutral",
         "Weak", some a, some b⟩

/-- `summarizer.trend_fn`: extract the last SMA50/SMA200 values with
`_safe_float`, then classify. -/
def trend_fn (df : SFrame) : TrendAssessment :=
  trend_core (safe_float df.sma50C) (safe_float df.sma200C)

/-- The `macd` sub-dict of the summary's indicator snapshot. -/
structure MacdSnap where
  macd : Option FVal
  signal : Option FVal
  hist : Option FVal
  deriving DecidableEq, Repr

/-- The `bollinger` sub-dict of the summary's indicator snapshot. -/
structure BollSnap where
  upper : Option FVal
  mid : Option FVal
  lower : Option FVal
  deriving DecidableEq, Repr

/-- The `indicators` part of the summary. -/
structure IndicatorSnap where
  rsi : Option FVal
  macd : MacdSnap
  bollinger : BollSnap
  atr : Option FVal
  deriving DecidableEq, Repr

/-- The structured document built by `summarizer.build_summary`. -/
structure Summary where
  ticker : String
  indicators : IndicatorSnap
  trend : List (String × TrendAssessment)
  patterns : List String
  support_resistance : SRZones
  trade_plan : TradePlan
  deriving DecidableEq, Repr

/-- The `safe_mtf_trend` helper of `build_summary`: apply `trend_fn` to each
timeframe's frame; a value that is not a DataFrame (`none`) yields the Unknown
assessment. -/
def safe_mtf_trend (mtf : List (String × Option SFrame)) : List (String × TrendAssessment) :=
  mtf.map (fun p =>
    (p.1, match p.2 with
          | some mdf => trend_fn mdf
          | none => ⟨"Unknown", "Unknown", none, none⟩))

/-- `summarizer.build_summary`: pure aggregation, with `_safe_float`
extraction of each indicator's last value and falsy-default handling of the
optional arguments. -/
def build_summary (ticker : String) (df : SFrame) (mtf : List (String × Option SFrame))
    (patterns : Option (List String)) (s_r : Option SRZones) (trade_plan : Option TradePlan) :
    Summary :=
  { ticker := ticker
    indicators :=
      { rsi := safe_float df.rsiC
        macd :=
          { macd := safe_float df.macdC
            signal := safe_float df.macdSignalC
            hist := safe_float df.macdHistC }
        bollinger :=
          { upper := safe_float df.bbUpperC
            mid := safe_float df.bbMidC
            lower := safe_float df.bbLowerC }
        atr := safe_float df.atrC }
    trend := safe_mtf_trend mtf
    patterns := patterns.getD []
    support_resistance := s_r.getD ⟨[], []⟩
    trade_plan := trade_plan.getD .empty }

/-- An extracted summary field is NaN-free: it is `None` or a non-NaN value. -/
def notNan (o : Option FVal) : Prop :=
  o ≠ some FVal.nan

/-- The property claimed of every numeric summary field: a finite value or
`None` (no NaN and no ±inf). -/
def finiteOrNull (o : Option FVal) : Prop :=
  o = none ∨ ∃ q, o = some (FVal.num q)

/-! ### Helper lemmas about the embedding -/

theorem ewmFrom_replicate (a c : ℚ) (n : ℕ) :
    ewmFrom a c (List.replicate n c) = List.replicate n c := by
  induction n with
  | zero => simp [ewmFrom]
  | succ n ih =>
    have h : (1 - a) * c + a * c = c := by ring
    simp [List.replicate_succ, ewmFrom, h, ih]

theorem ewmMean_replicate (a c : ℚ) (n : ℕ) :
    ewmMean a (List.replicate n c) = List.replicate n c := by
  cases n with
  | zero => rfl
  | succ n => simp [List.replicate_succ, ewmMean, ewmFrom_replicate]

theorem rsiDeltas_replicate (c : ℚ) (n : ℕ) :
    rsiDeltas (List.replicate n c) = List.replicate n 0 := by
  cases n with
  | zero => rfl
  | succ n =>
    simp only [List.replicate_succ, rsiDeltas]
    rw [show (c :: List.replicate n c) = List.replicate (n + 1) c from
          (List.replicate_succ c n).symm,
        List.zipWith_replicate, min_eq_left (Nat.le_succ n), sub_self]

theorem drop_replicate (k n : ℕ) (q : ℚ) :
    (List.replicate n q).drop k = List.replicate (n - k) q := by
  induction k generalizing n with
  | zero => simp
  | succ k ih =>
    cases n with
    | zero => simp
    | succ n => simp [List.replicate_succ, ih, Nat.succ_sub_succ]

theorem take_replicate (k n : ℕ) (q : ℚ) :
    (List.replicate n q).take k = List.replicate (min k n) q := by
  induction k generalizing n with
  | zero => simp
  | succ k ih =>
    cases n with
    | zero => simp
    | succ n => simp [List.replicate_succ, ih, Nat.succ_min_succ]

theorem maskMP_replicate (w n : ℕ) (q : ℚ) :
    maskMP w (List.replicate n q) =
      List.replicate (min (w - 1) n) none ++ List.replicate (n - (w - 1)) (some q) := by
  rw [maskMP, drop_replicate, List.map_replicate, List.length_replicate]

theorem zipWith_rsOf_flat (k m : ℕ) :
    List.zipWith rsOf
      (List.replicate k none ++ List.replicate m (some (0 : ℚ)))
      (List.replicate k none ++ List.replicate m (some (0 : ℚ))) =
      List.replicate (k + m) none := by
  have h2 : rsOf (some (0 : ℚ)) (some (0 : ℚ)) = none := by simp [rsOf]
  rw [List.zipWith_append _ _ _ _ _ (by simp), List.zipWith_replicate, List.zipWith_replicate,
    h2, min_self, min_self, List.replicate_add]
  rfl

theorem rsiFromRS_none : rsiFromRS none = 50 := by
  rw [rsiFromRS, clip]
  rw [show (max (0 : ℚ) 50) = 50 from max_eq_right (by norm_num)]
  exact min_eq_right (by norm_num)

theorem rsiCore_replicate (c : ℚ) (n : ℕ) :
    rsiCore (List.replicate n c) 14 = List.replicate n 50 := by
  by_cases h : n < 2
  · rw [rsiCore, if_pos (by simpa using h)]
    simp
  · have hgain : rsiGain (List.replicate n c) = List.replicate n 0 := by
      simp [rsiGain, rsiDeltas_replicate]
    have hloss : rsiLoss (List.replicate n c) = List.replicate n 0 := by
      simp [rsiLoss, rsiDeltas_replicate]
    have key : List.zipWith rsOf (rsiAvgGain (List.replicate n c) 14)
        (rsiAvgLoss (List.replicate n c) 14) = List.replicate n none := by
      rw [rsiAvgGain, rsiAvgLoss, hgain, hloss, ewmMean_replicate, maskMP_replicate,
        zipWith_rsOf_flat]
      congr 1
      omega
    rw [rsiCore, if_neg (by simpa using h), key]
    simp [rsiFromRS_none]

theorem clip_bounds (lo hi q : ℚ) (h : lo ≤ hi) :
    lo ≤ clip lo hi q ∧ clip lo hi q ≤ hi :=
  ⟨le_min h (le_max_left lo q), min_le_left hi _⟩

theorem trAux_replicate (c : ℚ) (k : ℕ) :
    trAux (List.replicate k c) (List.replicate k c) (List.replicate k c) c =
      List.replicate k 0 := by
  induction k with
  | zero => rfl
  | succ k ih => simp [List.replicate_succ, trAux, ih, sub_self]

theorem trList_replicate (c : ℚ) (n : ℕ) :
    trList (List.replicate n c) (List.replicate n c) (List.replicate n c) =
      List.replicate n 0 := by
  cases n with
  | zero => rfl
  | succ n => simp [List.replicate_succ, trList, trAux_replicate, sub_self]

theorem firstSome_replicate_none_append (k : ℕ) (l : List (Option ℚ)) :
    firstSome (List.replicate k none ++ l) = firstSome l := by
  induction k with
  | zero => rfl
  | succ k ih => simp [List.replicate_succ, firstSome, ih]

theorem atrCore_replicate (c : ℚ) (n : ℕ) (hn : 14 ≤ n) :
    atrCore (List.replicate n c) (List.replicate n c) (List.replicate n c) 14 =
      List.replicate n 0 := by
  have h2 : ¬ (List.replicate n c).length < 2 := by simp; omega
  have hmask : maskMP 14 (ewmMean (1 / ((14 : ℕ) : ℚ))
      (trList (List.replicate n c) (List.replicate n c) (List.replicate n c))) =
      List.replicate 13 none ++ List.replicate ((n - 14) + 1) (some (0 : ℚ)) := by
    rw [trList_replicate, ewmMean_replicate, maskMP_replicate]
    congr 1
    · congr 1
      omega
    · congr 1
      omega
  rw [atrCore, if_neg h2, hmask, firstSome_replicate_none_append, List.replicate_succ]
  simp only [firstSome]
  rw [List.map_append, List.map_replicate, ← List.replicate_succ, List.map_replicate]
  simp only [Option.getD_none, Option.getD_some, max_self]
  rw [← List.replicate_add]
  congr 1
  omega

theorem macdCore_replicate (c : ℚ) (n : ℕ) (hn : 26 ≤ n) :
    macdCore (List.replicate n c) 12 26 9 =
      (List.replicate n 0, List.replicate n 0, List.replicate n 0) := by
  have h : ¬ (List.replicate n c).length < 26 := by simp; omega
  rw [macdCore, if_neg h]
  simp only [ewmMean_replicate, List.zipWith_replicate, min_self, sub_self]

theorem meanQ_replicate (k : ℕ) (c : ℚ) (hk : k ≠ 0) :
    meanQ (List.replicate k c) = c := by
  rw [meanQ, List.sum_replicate, List.length_replicate, nsmul_eq_mul]
  exact mul_div_cancel_left₀ c (by exact_mod_cast hk)

theorem rollingWindow_replicate (w n i : ℕ) (c : ℚ) (hi : i < n) :
    rollingWindow w (List.replicate n c) i =
      List.replicate (i + 1 - (i + 1 - w)) c := by
  rw [rollingWindow, take_replicate, drop_replicate, min_eq_left (by omega)]

theorem rollingMean_replicate (w n : ℕ) (c : ℚ) (hw : 1 ≤ w) :
    rollingMean w (List.replicate n c) = List.replicate n c := by
  apply List.eq_replicate_iff.mpr
  refine ⟨by simp [rollingMean], ?_⟩
  intro b hb
  simp only [rollingMean, List.length_replicate, List.mem_map, List.mem_range] at hb
  obtain ⟨i, hi, rfl⟩ := hb
  rw [rollingWindow_replicate w n i c hi]
  exact meanQ_replicate _ c (by omega)

theorem rollingVar_replicate (w n : ℕ) (c : ℚ) (hw : 1 ≤ w) :
    rollingVar w (List.replicate n c) = List.replicate n 0 := by
  apply List.eq_replicate_iff.mpr
  refine ⟨by simp [rollingVar], ?_⟩
  intro b hb
  simp only [rollingVar, List.length_replicate, List.mem_map, List.mem_range] at hb
  obtain ⟨i, hi, rfl⟩ := hb
  rw [rollingWindow_replicate w n i c hi, meanQ_replicate _ c (by omega), List.map_replicate]
  have h0 : ((c - c) ^ 2 : ℚ) = 0 := by ring
  rw [h0]
  exact meanQ_replicate _ 0 (by omega)

theorem bbUpperList_replicate (n : ℕ) (c : ℚ) :
    bbUpperList (List.replicate n c) 20 2 = List.replicate n ((c : ℝ)) := by
  rw [bbUpperList, rollingMean_replicate 20 n c (by norm_num),
    rollingVar_replicate 20 n c (by norm_num), List.zipWith_replicate, min_self]
  norm_num

theorem bbLowerList_replicate (n : ℕ) (c : ℚ) :
    bbLowerList (List.replicate n c) 20 2 = List.replicate n ((c : ℝ)) := by
  rw [bbLowerList, rollingMean_replicate 20 n c (by norm_num),
    rollingVar_replicate 20 n c (by norm_num), List.zipWith_replicate, min_self]
  norm_num

/-! ### Claim theorems -/

/-- Claim C4: on the flat 300-bar series (Close = 10 throughout, High = Low =
Close for the ATR) every bar's RSI is 50, every bar's MACD histogram is 0, the
Bollinger upper and lower bands both equal 10 on every bar (width 0), and
every bar's ATR is 0. -/
theorem C4_flat_series :
    rsiCore (List.replicate 300 10) 14 = List.replicate 300 50 ∧
    (macdCore (List.replicate 300 10) 12 26 9).2.2 = List.replicate 300 0 ∧
    bbUpperList (List.replicate 300 10) 20 2 = List.replicate 300 (10 : ℝ) ∧
    bbLowerList (List.replicate 300 10) 20 2 = List.replicate 300 (10 : ℝ) ∧
    atrCore (List.replicate 300 10) (List.replicate 300 10) (List.replicate 300 10) 14 =
      List.replicate 300 0 := by
  refine ⟨rsiCore_replicate 10 300, ?_, ?_, ?_, atrCore_replicate 10 300 (by norm_num)⟩
  · rw [macdCore_replicate 10 300 (by norm_num)]
  · rw [bbUpperList_replicate 300 10]
    norm_num
  · rw [bbLowerList_replicate 300 10]
    norm_num

/-- Claim C9: every value of the computed RSI column lies in [0, 100], and
every value of the computed ATR column is nonnegative. -/
theorem C9_rsi_atr_bounds :
    (∀ (c : List ℚ) (v : ℚ), v ∈ rsiCore c 14 → 0 ≤ v ∧ v ≤ 100) ∧
    (∀ (high low c : List ℚ) (v : ℚ), v ∈ atrCore high low c 14 → 0 ≤ v) := by
  constructor
  · intro c v hv
    rw [rsiCore] at hv
    split at hv
    · have := List.eq_of_mem_replicate hv
      subst this
      norm_num
    · obtain ⟨o, -, rfl⟩ := List.mem_map.mp hv
      exact clip_bounds 0 100 _ (by norm_num)
  · intro high low c v hv
    rw [atrCore] at hv
    split at hv
    · have := List.eq_of_mem_replicate hv
      subst this
      exact le_refl 0
    · split at hv
      · have := List.eq_of_mem_replicate hv
        subst this
        exact le_refl 0
      · obtain ⟨o, -, rfl⟩ := List.mem_map.mp hv
        exact le_max_left 0 _

/-- Witness for C9: the theorem applied to the one-bar series [5] (whose RSI
column is [50]) and a one-bar ATR input (whose ATR column is [0]). -/
theorem C9_witness : ((0 : ℚ) ≤ 50 ∧ (50 : ℚ) ≤ 100) ∧ (0 : ℚ) ≤ 0 := by
  constructor
  · exact C9_rsi_atr_bounds.1 [5] 50 (by simp [rsiCore])
  · exact C9_rsi_atr_bounds.2 [1] [1] [1] 0 (by simp [atrCore])

/-- Claim C10: a `None` frame and an empty frame both make `build_trade_plan`
return the empty dict without raising, whatever the zones dictionary is. -/
theorem C10_none_or_empty (s_r : SRZones) :
    build_trade_plan none s_r = .empty ∧ build_trade_plan (some []) s_r = .empty := by
  exact ⟨rfl, by simp [build_trade_plan]⟩

/-- Witness for C10 at a concrete zones dictionary. -/
theorem C10_witness :
    build_trade_plan none ⟨[], []⟩ = .empty ∧
    build_trade_plan (some []) ⟨[], []⟩ = .empty :=
  C10_none_or_empty ⟨[], []⟩

theorem rsiAvg_flat (n : ℕ) (c : ℚ) :
    rsiAvgGain (List.replicate n c) 14 =
      List.replicate (min 13 n) none ++ List.replicate (n - 13) (some 0) ∧
    rsiAvgLoss (List.replicate n c) 14 =
      List.replicate (min 13 n) none ++ List.replicate (n - 13) (some 0) := by
  constructor
  · rw [rsiAvgGain, show rsiGain (List.replicate n c) = List.replicate n 0 from by
      simp [rsiGain, rsiDeltas_replicate], ewmMean_replicate, maskMP_replicate]
  · rw [rsiAvgLoss, show rsiLoss (List.replicate n c) = List.replicate n 0 from by
      simp [rsiLoss, rsiDeltas_replicate], ewmMean_replicate, maskMP_replicate]

theorem rsiAvg_flat_getElem (n i : ℕ) (c : ℚ) (h13 : 13 ≤ i) (hin : i < n) :
    (rsiAvgGain (List.replicate n c) 14)[i]? = some (some 0) ∧
    (rsiAvgLoss (List.replicate n c) 14)[i]? = some (some 0) := by
  have hmin : min 13 n = 13 := by omega
  constructor
  · rw [(rsiAvg_flat n c).1, hmin, List.getElem?_append_right (by simp [h13])]
    simp only [List.length_replicate]
    exact List.getElem?_replicate_of_lt (by omega)
  · rw [(rsiAvg_flat n c).2, hmin, List.getElem?_append_right (by simp [h13])]
    simp only [List.length_replicate]
    exact List.getElem?_replicate_of_lt (by omega)

/-- Claim C3 counterexample: on the flat 16-bar series Close = 10 the Wilder
average loss at bar 15 (past the 14-bar warm-up) is zero, yet the RSI there is
50, not 100 - 100/(1+100): with a zero average gain the ratio is NaN (0/0),
not 100. -/
theorem C3_counterexample :
    (rsiAvgLoss (List.replicate 16 10) 14)[15]? = some (some 0) ∧
    (rsiCore (List.replicate 16 10) 14)[15]? = some 50 ∧
    (50 : ℚ) ≠ 100 - 100 / (1 + 100) := by
  refine ⟨(rsiAvg_flat_getElem 16 15 10 (by omega) (by omega)).2, ?_, by norm_num⟩
  rw [rsiCore_replicate]
  exact List.getElem?_replicate_of_lt (by omega)

/-- Claim C3 (amended): at a bar past the RSI warm-up where the Wilder average
loss is zero, the ratio is forced to 100 and the RSI equals 100 - 100/(1+100)
only when the average gain there is nonzero; when the average gain is also
zero the ratio is NaN (0/0 is not replaced) and the RSI falls back to 50. -/
theorem C3_amended (c : List ℚ) (i : ℕ) (g : ℚ)
    (hlen : 2 ≤ c.length)
    (hg : (rsiAvgGain c 14)[i]? = some (some g))
    (hl : (rsiAvgLoss c 14)[i]? = some (some 0)) :
    (rsiCore c 14)[i]? = some (if g = 0 then 50 else 100 - 100 / (1 + 100)) := by
  rw [rsiCore, if_neg (by omega), List.getElem?_map, List.getElem?_zipWith, hg, hl]
  have hrs : rsOf (some g) (some 0) = if g = 0 then none else some 100 := by
    simp [rsOf]
  simp only [hrs]
  by_cases hg0 : g = 0
  · simp [hg0, rsiFromRS_none]
  · simp only [if_neg hg0, Option.map_some']
    congr 1
    rw [rsiFromRS]
    show clip 0 100 (100 - 100 / (1 + 100)) = 100 - 100 / (1 + 100)
    rw [clip, max_eq_right (by norm_num), min_eq_right (by norm_num)]

/-- Witness for C3 (amended) on the flat 16-bar series at bar 15, where the
average gain is zero and the RSI is 50. -/
theorem C3_witness :
    (rsiCore (List.replicate 16 10) 14)[15]? =
      some (if (0 : ℚ) = 0 then 50 else 100 - 100 / (1 + 100)) :=
  C3_amended (List.replicate 16 10) 15 0 (by simp)
    (rsiAvg_flat_getElem 16 15 10 (by omega) (by omega)).1
    (rsiAvg_flat_getElem 16 15 10 (by omega) (by omega)).2

/-- Claim C2 counterexample: with the Close column missing, `calculate_smas`
silently returns the frame unchanged, and with the High column missing (Low
present and non-empty) `swing_levels` silently returns two empty lists; in
neither case is an error raised. -/
theorem C2_counterexample :
    calculate_smas ⟨none, none, none⟩ = ⟨none, none, none⟩ ∧
    swing_levels none (some [1, 2, 3]) = ([], []) :=
  ⟨rfl, rfl⟩

/-- Claim C2 (amended): `rsi`, `macd` and `bollinger` do raise on a missing or
empty Close column, and `atr` raises when any of High/Low/Close is missing;
but `calculate_smas` silently returns the frame unchanged on a missing or
empty Close column, and `swing_levels` silently returns two empty lists when
High or Low is missing. -/
theorem C2_amended :
    rsi none = .error .valueError ∧ rsi (some []) = .error .valueError ∧
    macd none = .error .valueError ∧ macd (some []) = .error .valueError ∧
    bollinger none = .error .valueError ∧ bollinger (some []) = .error .valueError ∧
    (∀ high low close : Option (List ℚ), high = none ∨ low = none ∨ close = none →
      atr high low close = .error .valueError) ∧
    (∀ df : SmaFrame, df.close = none ∨ df.close = some [] → calculate_smas df = df) ∧
    (∀ high low : Option (List ℚ), high = none ∨ low = none →
      swing_levels high low = ([], [])) := by
  refine ⟨rfl, by simp [rsi], rfl, by simp [macd], rfl, by simp [bollinger], ?_, ?_, ?_⟩
  · rintro high low close (rfl | rfl | rfl)
    · rfl
    · cases high <;> rfl
    · cases high <;> cases low <;> rfl
  · rintro df (h | h) <;> rw [calculate_smas, h]
    simp
  · rintro high low (rfl | rfl)
    · rfl
    · cases high <;> rfl

/-- Witness for C2 (amended): the unchanged-frame and raise branches at
concrete inputs. -/
theorem C2_witness :
    calculate_smas ⟨none, some [1], none⟩ = ⟨none, some [1], none⟩ ∧
    atr none (some [1]) (some [1]) = .error .valueError := by
  constructor
  · exact C2_amended.2.2.2.2.2.2.2.1 ⟨none, some [1], none⟩ (Or.inl rfl)
  · exact C2_amended.2.2.2.2.2.2.1 none (some [1]) (some [1]) (Or.inl rfl)

theorem roundHalfEven_intCast (k : ℤ) : roundHalfEven (k : ℚ) = k := by
  norm_num [roundHalfEven, Int.floor_intCast]

theorem roundTo_intCast (d : ℕ) (k : ℤ) : roundTo d (k : ℚ) = k := by
  rw [roundTo]
  have h : ((k : ℚ) * 10 ^ d) = ((k * 10 ^ d : ℤ) : ℚ) := by push_cast; ring
  rw [h, roundHalfEven_intCast]
  push_cast
  exact mul_div_cancel_right₀ _ (by positivity)

theorem roundTo_natCast (d : ℕ) (n : ℕ) : roundTo d (n : ℚ) = n := by
  have h := roundTo_intCast d n
  push_cast at h
  exact h

/-- Claim C6: whenever `build_trade_plan` returns a plan whose direction is
LONG, the plan's stop-loss is strictly below its entry and its take-profit is
strictly above its entry. -/
theorem C6_long_ordering (c : List ℚ) (s_r : SRZones) (d : Option String)
    (e s t : ℚ) (r : Option ℚ) (note : String)
    (hne : c ≠ []) (hpos : 0 < (c.getLast?).getD 0)
    (hp : build_trade_plan (some c) s_r = .full d e s t r note)
    (hd : d = some "LONG") :
    s < e ∧ e < t := by
  subst hd
  simp only [build_trade_plan] at hp
  rw [if_neg hne] at hp
  rcases hmin : listMin ((s_r.resistance_zones.map (·.level)).filter
      (fun x => decide ((c.getLast?).getD 0 < x))) with _ | nr
  · rw [hmin] at hp
    simp at hp
  · rw [hmin] at hp
    simp only [TradePlan.full.injEq] at hp
    obtain ⟨hdir, he, hs, ht, -, -⟩ := hp
    by_cases hP :
        (listMax ((s_r.support_zones.map (·.level)).filter
          (fun x => decide (x < (c.getLast?).getD 0)))).getD 0 < (c.getLast?).getD 0 ∧
        (c.getLast?).getD 0 < nr
    · exact ⟨he ▸ hs ▸ hP.1, he ▸ ht ▸ hP.2⟩
    · rw [if_neg hP] at hdir
      exact absurd hdir (by simp)

/-- Claim C7: on a non-empty frame whose zones put no resistance level
strictly above the last close, `build_trade_plan` returns (does not raise) the
note-only plan with no direction and no price levels. -/
theorem C7_no_resistance (c : List ℚ) (s_r : SRZones)
    (hne : c ≠ [])
    (hr : ∀ z ∈ s_r.resistance_zones, ¬ ((c.getLast?).getD 0 < z.level)) :
    build_trade_plan (some c) s_r = .noteOnly "No valid resistance zone above price." := by
  have hfilter : (s_r.resistance_zones.map (·.level)).filter
      (fun x => decide ((c.getLast?).getD 0 < x)) = [] := by
    apply List.filter_eq_nil_iff.mpr
    intro a ha
    obtain ⟨z, hz, rfl⟩ := List.mem_map.mp ha
    simpa using hr z hz
  simp only [build_trade_plan]
  rw [if_neg hne, hfilter]
  rfl

/-- Witness for C6: the concrete plan for last close 100, one support zone at
95 and one resistance zone at 110 is LONG with entry 100, stop 95, target
110, and the theorem yields 95 < 100 < 110. -/
theorem C6_witness : (95 : ℚ) < 100 ∧ (100 : ℚ) < 110 := by
  have h2 : roundTo 2 (2 : ℚ) = 2 := by
    have e : (2 : ℚ) = ((2 : ℕ) : ℚ) := by norm_num
    rw [e, roundTo_natCast]
  apply C6_long_ordering [100] ⟨[⟨95, "medium", 1⟩], [⟨110, "medium", 1⟩]⟩
      (some "LONG") 100 95 110 (some 2)
      "Trade plan generated based on support/resistance levels."
      (by simp) (by norm_num) ?_ rfl
  simp only [build_trade_plan]
  norm_num [listMax, listMin, h2]

/-- Witness for C7: last close 100 with the single resistance zone at 90
(nothing above the price) gives the note-only plan. -/
theorem C7_witness :
    build_trade_plan (some [100]) ⟨[], [⟨90, "medium", 1⟩]⟩ =
      .noteOnly "No valid resistance zone above price." := by
  apply C7_no_resistance [100] ⟨[], [⟨90, "medium", 1⟩]⟩ (by simp)
  intro z hz
  simp only [List.mem_singleton] at hz
  subst hz
  norm_num

theorem trend_core_num (x y : ℚ) (hy : y ≠ 0) :
    trend_core (some (.num x)) (some (.num y)) =
      if |x - y| / y < 5 / 1000 then
        ⟨"Neutral", "Weak", some (.num x), some (.num y)⟩
      else if 3 / 100 ≤ |x - y| / y then
        ⟨if y < x then "Bullish" else if x < y then "Bearish" else "Neutral", "Strong",
          some (.num x), some (.num y)⟩
      else if 15 / 1000 ≤ |x - y| / y then
        ⟨if y < x then "Bullish" else if x < y then "Bearish" else "Neutral", "Moderate",
          some (.num x), some (.num y)⟩
      else
        ⟨if y < x then "Bullish" else if x < y then "Bearish" else "Neutral", "Weak",
          some (.num x), some (.num y)⟩ := by
  simp only [trend_core]
  rw [if_neg (by simp [hy])]
  simp only [FVal.sub, FVal.abs, FVal.div, if_neg hy, FVal.flt, FVal.fle,
    decide_eq_true_eq]

/-- Claim C8: the trend classifier is a pure function of (sma50, sma200); its
trend and strength are Unknown exactly when an SMA is missing or sma200 is
zero, and otherwise, with g = |sma50 - sma200| / sma200, it gives Neutral/Weak
when g < 0.5%, Strong when g >= 3%, Moderate when 1.5% <= g < 3%, Weak
otherwise, with the trend determined by the sign of sma50 - sma200 whenever
g >= 0.5%. -/
theorem C8_trend_classifier :
    (∀ a b : Option FVal,
      ((trend_core a b).trend = "Unknown" ∧ (trend_core a b).strength = "Unknown") ↔
        (a = none ∨ b = none ∨ b = some (FVal.num 0))) ∧
    (∀ x y : ℚ, y ≠ 0 →
      ((|x - y| / y < 5 / 1000 →
          trend_core (some (.num x)) (some (.num y)) =
            ⟨"Neutral", "Weak", some (.num x), some (.num y)⟩) ∧
       (5 / 1000 ≤ |x - y| / y →
          (trend_core (some (.num x)) (some (.num y))).trend =
            if y < x then "Bullish" else if x < y then "Bearish" else "Neutral") ∧
       (3 / 100 ≤ |x - y| / y →
          (trend_core (some (.num x)) (some (.num y))).strength = "Strong") ∧
       (15 / 1000 ≤ |x - y| / y ∧ |x - y| / y < 3 / 100 →
          (trend_core (some (.num x)) (some (.num y))).strength = "Moderate") ∧
       (5 / 1000 ≤ |x - y| / y ∧ |x - y| / y < 15 / 1000 →
          (trend_core (some (.num x)) (some (.num y))).strength = "Weak"))) := by
  constructor
  · intro a b
    constructor
    · intro hts
      by_contra hcon
      push_neg at hcon
      obtain ⟨ha, hb, hb0⟩ := hcon
      cases a with
      | none => exact ha rfl
      | some a0 =>
        cases b with
        | none => exact hb rfl
        | some b0 =>
          have hs := hts.2
          simp only [trend_core] at hs
          rw [if_neg (fun h => hb0 (by rw [h]))] at hs
          split_ifs at hs <;> simp at hs
    · rintro (rfl | rfl | rfl)
      · cases b <;> exact ⟨rfl, rfl⟩
      · cases a <;> exact ⟨rfl, rfl⟩
      · cases a <;> simp [trend_core]
  · intro x y hy
    rw [trend_core_num x y hy]
    refine ⟨?_, ?_, ?_, ?_, ?_⟩
    · intro h
      rw [if_pos h]
    · intro h
      rw [if_neg (by linarith)]
      split_ifs <;> rfl
    · intro h
      rw [if_neg (by linarith), if_pos h]
    · intro h
      rw [if_neg (by linarith), if_neg (by linarith), if_pos h.1]
    · intro h
      rw [if_neg (by linarith), if_neg (by linarith), if_neg (by linarith)]

/-- Witness for C8: SMA50 = 2 against SMA200 = 1 (gap 100%) classifies with
strength Strong. -/
theorem C8_witness :
    (trend_core (some (FVal.num 2)) (some (FVal.num 1))).strength = "Strong" :=
  (C8_trend_classifier.2 2 1 (by norm_num)).2.2.1
    (by rw [show |(2 : ℚ) - 1| = 1 by norm_num]; norm_num)

theorem safe_float_notNan (s : Option (List FVal)) : notNan (safe_float s) := by
  rw [notNan]
  cases s with
  | none => simp [safe_float]
  | some l =>
    rw [safe_float]
    rcases h : l.getLast? with _ | v
    · simp
    · cases v <;> simp [pd_notna]

theorem trend_core_sma_fields (a b : Option FVal) :
    ((trend_core a b).sma50 = none ∨ (trend_core a b).sma50 = a) ∧
    ((trend_core a b).sma200 = none ∨ (trend_core a b).sma200 = b) := by
  cases a <;> cases b <;> simp [trend_core] <;> split_ifs <;> simp

/-- Claim C1 (amended): every extracted last-bar value placed in the summary
(the indicator snapshot fields and the per-timeframe sma50/sma200 fields) is
NaN-free: it is either null or a non-NaN value.  ±inf is NOT excluded, since
it passes `pd.notna` (see the counterexample). -/
theorem C1_no_nan (ticker : String) (df : SFrame) (mtf : List (String × Option SFrame))
    (patterns : Option (List String)) (s_r : Option SRZones) (tp : Option TradePlan) :
    notNan (build_summary ticker df mtf patterns s_r tp).indicators.rsi ∧
    notNan (build_summary ticker df mtf patterns s_r tp).indicators.macd.macd ∧
    notNan (build_summary ticker df mtf patterns s_r tp).indicators.macd.signal ∧
    notNan (build_summary ticker df mtf patterns s_r tp).indicators.macd.hist ∧
    notNan (build_summary ticker df mtf patterns s_r tp).indicators.bollinger.upper ∧
    notNan (build_summary ticker df mtf patterns s_r tp).indicators.bollinger.mid ∧
    notNan (build_summary ticker df mtf patterns s_r tp).indicators.bollinger.lower ∧
    notNan (build_summary ticker df mtf patterns s_r tp).indicators.atr ∧
    ∀ p ∈ (build_summary ticker df mtf patterns s_r tp).trend,
      notNan p.2.sma50 ∧ notNan p.2.sma200 := by
  refine ⟨safe_float_notNan _, safe_float_notNan _, safe_float_notNan _, safe_float_notNan _,
    safe_float_notNan _, safe_float_notNan _, safe_float_notNan _, safe_float_notNan _, ?_⟩
  intro p hp
  simp only [build_summary, safe_mtf_trend, List.mem_map] at hp
  obtain ⟨⟨tf, odf⟩, hq, rfl⟩ := hp
  cases odf with
  | none => exact ⟨by simp [notNan], by simp [notNan]⟩
  | some mdf =>
    constructor
    · show notNan (trend_fn mdf).sma50
      have hf : (trend_fn mdf).sma50 = none ∨
          (trend_fn mdf).sma50 = safe_float mdf.sma50C :=
        (trend_core_sma_fields (safe_float mdf.sma50C) (safe_float mdf.sma200C)).1
      rcases hf with h | h
      · rw [notNan, h]
        simp
      · rw [notNan, h]
        exact safe_float_notNan _
    · show notNan (trend_fn mdf).sma200
      have hf : (trend_fn mdf).sma200 = none ∨
          (trend_fn mdf).sma200 = safe_float mdf.sma200C :=
        (trend_core_sma_fields (safe_float mdf.sma50C) (safe_float mdf.sma200C)).2
      rcases hf with h | h
      · rw [notNan, h]
        simp
      · rw [notNan, h]
        exact safe_float_notNan _

/-- Claim C1 counterexample: a frame whose RSI column ends in +inf puts +inf
(which passes `pd.notna`) straight into the summary: the extracted last-bar
value is neither a finite float nor null. -/
theorem C1_counterexample :
    ¬ finiteOrNull
      ((build_summary "TICK"
        ⟨some [FVal.inf], none, none, none, none, none, none, none, none, none⟩
        [] none none none).indicators.rsi) := by
  intro h
  rcases h with h | ⟨q, h⟩
  · simp [build_summary, safe_float, pd_notna] at h
  · simp [build_summary, safe_float, pd_notna] at h

/-- Witness for C1 (amended) at a concrete summary with no columns. -/
theorem C1_witness :
    notNan ((build_summary "TICK"
      ⟨none, none, none, none, none, none, none, none, none, none⟩
      [] none none none).indicators.rsi) :=
  (C1_no_nan "TICK" ⟨none, none, none, none, none, none, none, none, none, none⟩
    [] none none none).1

theorem sortQ_perm (l : List ℚ) : (sortQ l).Perm l :=
  List.perm_insertionSort _ l

theorem clusterGo_chain (th : ℚ) (cur : List ℚ) (lastv : ℚ) (rest : List ℚ)
    (h : List.Chain (fun a b => ¬ (|b - a| / a < th)) lastv rest) :
    clusterGo th cur lastv rest = cur :: rest.map (fun x => [x]) := by
  induction rest generalizing cur lastv with
  | nil => rfl
  | cons x xs ih =>
    rw [List.chain_cons] at h
    simp only [clusterGo]
    rw [if_neg h.1, ih [x] x h.2, List.map_cons]

theorem cluster_levels_mem_roundTo (levels : List ℚ) (th : ℚ) (x : ℚ)
    (hx : x ∈ (cluster_levels levels th).map LevelCluster.level) :
    ∃ m, x = roundTo 4 m := by
  rw [cluster_levels] at hx
  split at hx
  · simp at hx
  · simp only [List.map_map, List.mem_map] at hx
    obtain ⟨c, -, rfl⟩ := hx
    exact ⟨meanQ c, rfl⟩

theorem roundTo_roundTo (d : ℕ) (q : ℚ) : roundTo d (roundTo d q) = roundTo d q := by
  have h : (roundTo d q) * 10 ^ d = ((roundHalfEven (q * 10 ^ d) : ℤ) : ℚ) := by
    rw [roundTo]
    exact div_mul_cancel₀ _ (by positivity)
  conv_lhs => rw [roundTo]
  rw [h, roundHalfEven_intCast, roundTo]

theorem mkCluster_singleton (x : ℚ) :
    mkCluster [x] = ⟨roundTo 4 x, "medium", 1⟩ := by
  rw [mkCluster]
  have hm : meanQ [x] = x := by
    simp [meanQ]
  rw [hm]
  rfl

/-- Claim C5 (amended): clustering is idempotent up to the 4-decimal rounding
of cluster means: for a non-empty list of positive levels, provided the sorted
output levels are still positive and consecutive ones still fail the merge
test (at least the threshold apart, relatively) — which exact means always
satisfy but the rounding can break — re-clustering the output's level values
with the same threshold returns exactly one cluster of size one (hits = 1)
per level, with the same level value. -/
theorem C5_idempotent_amended (levels : List ℚ) (th : ℚ)
    (hne : levels ≠ []) (hpos : ∀ x ∈ levels, 0 < x)
    (hLpos : ∀ x ∈ sortQ ((cluster_levels levels th).map LevelCluster.level), 0 < x)
    (hgap : List.Chain' (fun a b => ¬ (|b - a| / a < th))
      (sortQ ((cluster_levels levels th).map LevelCluster.level))) :
    cluster_levels ((cluster_levels levels th).map LevelCluster.level) th =
      (sortQ ((cluster_levels levels th).map LevelCluster.level)).map
        (fun x => ⟨x, "medium", 1⟩) := by
  by_cases hL : (cluster_levels levels th).map LevelCluster.level = []
  · rw [hL]
    simp [cluster_levels, sortQ, List.insertionSort]
  · rw [cluster_levels, if_neg hL]
    rcases hS : sortQ ((cluster_levels levels th).map LevelCluster.level) with _ | ⟨y, ys⟩
    · exfalso
      have hperm := sortQ_perm ((cluster_levels levels th).map LevelCluster.level)
      rw [hS] at hperm
      exact hL hperm.symm.eq_nil
    · rw [hS] at hgap
      simp only [clusterSorted]
      rw [clusterGo_chain th [y] y ys hgap]
      have hmem : ∀ x ∈ y :: ys, mkCluster [x] = (⟨x, "medium", 1⟩ : LevelCluster) := by
        intro x hx
        rw [mkCluster_singleton]
        have hxS : x ∈ sortQ ((cluster_levels levels th).map LevelCluster.level) := by
          rw [hS]
          exact hx
        have hxL : x ∈ (cluster_levels levels th).map LevelCluster.level :=
          (sortQ_perm _).mem_iff.mp hxS
        obtain ⟨m, rfl⟩ := cluster_levels_mem_roundTo levels th x hxL
        rw [roundTo_roundTo]
      calc List.map mkCluster ([y] :: List.map (fun x => [x]) ys)
          = List.map mkCluster (List.map (fun x => [x]) (y :: ys)) := by
            simp
        _ = List.map (fun x => mkCluster [x]) (y :: ys) := by
            rw [List.map_map]
            rfl
        _ = List.map (fun x => (⟨x, "medium", 1⟩ : LevelCluster)) (y :: ys) :=
            List.map_congr_left hmem

/-- Claim C5 counterexample: the positive levels [1/5000, 21/100000]
(0.0002 and 0.00021, 5% apart, hence two clusters) both round to the 4-decimal
level 0.0002; re-clustering the output's level values with the same threshold
1/200 merges them into a single cluster with 2 hits instead of returning the
same two one-hit clusters. -/
theorem C5_counterexample :
    cluster_levels [1 / 5000, 21 / 100000] (1 / 200) =
      [⟨1 / 5000, "medium", 1⟩, ⟨1 / 5000, "medium", 1⟩] ∧
    cluster_levels ((cluster_levels [1 / 5000, 21 / 100000] (1 / 200)).map
        LevelCluster.level) (1 / 200) = [⟨1 / 5000, "strong", 2⟩] ∧
    ([⟨1 / 5000, "strong", 2⟩] : List LevelCluster) ≠
      [⟨1 / 5000, "medium", 1⟩, ⟨1 / 5000, "medium", 1⟩] := by
  have h1 : roundTo 4 (1 / 5000 : ℚ) = 1 / 5000 := by
    rw [roundTo, show ((1 / 5000 : ℚ) * 10 ^ 4) = ((2 : ℤ) : ℚ) by norm_num,
      roundHalfEven_intCast]
    norm_num
  have hfloor : (⌊(21 / 10 : ℚ)⌋ : ℤ) = 2 := by
    rw [Int.floor_eq_iff]
    constructor <;> norm_num
  have h2 : roundTo 4 (21 / 100000 : ℚ) = 1 / 5000 := by
    rw [roundTo, show ((21 / 100000 : ℚ) * 10 ^ 4) = 21 / 10 by norm_num, roundHalfEven,
      hfloor]
    norm_num
  have habs : |(21 / 100000 : ℚ) - 1 / 5000| = 1 / 100000 := by
    rw [show ((21 / 100000 : ℚ) - 1 / 5000) = 1 / 100000 by norm_num]
    exact abs_of_pos (by norm_num)
  have hsort : sortQ [1 / 5000, 21 / 100000] = [(1 / 5000 : ℚ), 21 / 100000] := by
    norm_num [sortQ, List.insertionSort, List.orderedInsert]
  have hclusters : clusterSorted (1 / 200) [(1 / 5000 : ℚ), 21 / 100000] =
      [[(1 / 5000 : ℚ)], [(21 / 100000 : ℚ)]] := by
    simp only [clusterSorted, clusterGo]
    rw [if_neg (by rw [habs]; norm_num)]
  have hfirst : cluster_levels [1 / 5000, 21 / 100000] (1 / 200) =
      [⟨1 / 5000, "medium", 1⟩, ⟨1 / 5000, "medium", 1⟩] := by
    rw [cluster_levels, if_neg (by simp), hsort, hclusters, List.map_cons, List.map_cons,
      List.map_nil, mkCluster_singleton, mkCluster_singleton, h1, h2]
  have hlev : (cluster_levels [1 / 5000, 21 / 100000] (1 / 200)).map LevelCluster.level =
      [(1 / 5000 : ℚ), 1 / 5000] := by
    rw [hfirst]
    rfl
  have hsort2 : sortQ [(1 / 5000 : ℚ), 1 / 5000] = [(1 / 5000 : ℚ), 1 / 5000] := by
    norm_num [sortQ, List.insertionSort, List.orderedInsert]
  have hclusters2 : clusterSorted (1 / 200) [(1 / 5000 : ℚ), 1 / 5000] =
      [[(1 / 5000 : ℚ), 1 / 5000]] := by
    simp only [clusterSorted, clusterGo]
    rw [if_pos (by rw [sub_self, abs_zero]; norm_num)]
    rfl
  have hmean2 : meanQ [(1 / 5000 : ℚ), 1 / 5000] = 1 / 5000 := by
    rw [meanQ]
    norm_num
  have hsecond : cluster_levels [(1 / 5000 : ℚ), 1 / 5000] (1 / 200) =
      [⟨1 / 5000, "strong", 2⟩] := by
    rw [cluster_levels, if_neg (by simp), hsort2, hclusters2, List.map_cons, List.map_nil,
      mkCluster, hmean2, h1]
    rfl
  refine ⟨hfirst, ?_, by simp⟩
  rw [hlev]
  exact hsecond

/-- Witness for C5 (amended): levels [1, 2] with threshold 1/200; the two
output levels 1 and 2 stay positive and far apart, and re-clustering them
returns the same two one-hit clusters. -/
theorem C5_witness :
    cluster_levels ((cluster_levels [(1 : ℚ), 2] (1 / 200)).map LevelCluster.level)
        (1 / 200) =
      (sortQ ((cluster_levels [(1 : ℚ), 2] (1 / 200)).map LevelCluster.level)).map
        (fun x => ⟨x, "medium", 1⟩) := by
  have hr1 : roundTo 4 (1 : ℚ) = 1 := by
    have h := roundTo_natCast 4 1
    push_cast at h
    exact h
  have hr2 : roundTo 4 (2 : ℚ) = 2 := by
    have h := roundTo_natCast 4 2
    push_cast at h
    exact h
  have habs : |(2 : ℚ) - 1| = 1 := by
    rw [show ((2 : ℚ) - 1) = 1 by norm_num]
    exact abs_one
  have hsort : sortQ [(1 : ℚ), 2] = [(1 : ℚ), 2] := by
    norm_num [sortQ, List.insertionSort, List.orderedInsert]
  have hcl : cluster_levels [(1 : ℚ), 2] (1 / 200) =
      [⟨1, "medium", 1⟩, ⟨2, "medium", 1⟩] := by
    rw [cluster_levels, if_neg (by simp), hsort]
    simp only [clusterSorted, clusterGo]
    rw [if_neg (by rw [habs]; norm_num), List.map_cons, List.map_cons, List.map_nil,
      mkCluster_singleton, mkCluster_singleton, hr1, hr2]
  have hlev : (cluster_levels [(1 : ℚ), 2] (1 / 200)).map LevelCluster.level =
      [(1 : ℚ), 2] := by
    rw [hcl]
    rfl
  apply C5_idempotent_amended [(1 : ℚ), 2] (1 / 200) (by simp) (by norm_num) ?_ ?_
  · rw [hlev, hsort]
    norm_num
  · rw [hlev, hsort]
    refine List.chain'_cons.mpr ⟨?_, List.chain'_singleton _⟩
    rw [habs]
    norm_num
